import Mathlib

/-!
Verification development for the dynamic JSON-to-protobuf encoding engine of
`mock_server.py` (class `ProtobufMockHandler`).

The engine is shallowly embedded:

* `JsonValue` models the parsed JSON input tree (`json.load`).  Python floats
  are not modelled (no claim involves a non-integral number); JSON numbers are
  integers here, and Python's `bool` being an `int` subclass is modelled
  explicitly where `isinstance(value, (int, float))` occurs.
* `FieldType` / `Descriptor` model the compiled message descriptors that
  `protoc`-generated classes expose (`DESCRIPTOR.fields_by_name`), including
  the `google.protobuf.Struct` marker and map-entry types.
* `Msg` models a mutable message instance as an association list of the
  fields that have been set; `populateFields`/`populateKey` translate
  `_populate_message` line by line, with Python exception propagation made
  explicit as an `Option PyErr` component (mutations performed before an
  exception persist, as they do on the Python objects).
* `scanLines`/`findProtoImports` translate `_find_proto_imports`, and
  `encodeFromModule`/`importModule` translate the compile/import/lookup part
  of `_encode_to_protobuf`, with `sys.modules` caching of `__import__`
  modelled in `SysState`.
-/

/-- A parsed JSON value (the result of `json.load`).  JSON numbers are
modelled as integers; floats are outside the scope of the claims. -/
inductive JsonValue where
  | jNull
  | jBool (b : Bool)
  | jInt (n : Int)
  | jStr (s : String)
  | jArr (items : List JsonValue)
  | jObj (fields : List (String × JsonValue))
deriving Repr

/-- A `google.protobuf.Value` content, the recursive union stored inside a
`google.protobuf.Struct` (the well-known dynamic-value wrapper). -/
inductive StructValue where
  | sNull
  | sBool (b : Bool)
  | sNum (n : Int)
  | sStr (s : String)
  | sList (l : List StructValue)
  | sObj (l : List (String × StructValue))
deriving Repr

/-- The type of a message field as exposed by a protobuf field descriptor:
scalar kinds, the `google.protobuf.Struct` marker (detected by
`field.message_type.full_name`), nested message types, and map-entry message
types (detected by `field.message_type.GetOptions().map_entry`; the argument
is the type of the entry's `value` field; map keys are modelled as strings,
which is what JSON object keys always are). -/
inductive FieldType where
  | ftInt
  | ftStr
  | ftBool
  | ftStruct
  | ftMsg (fields : List (String × Bool × FieldType))
  | ftMap (valTy : FieldType)
deriving Repr

/-- A message descriptor: the field set, each field given by its name, its
`repeated` label, and its type (`DESCRIPTOR.fields_by_name`). -/
abbrev Descriptor := List (String × Bool × FieldType)

/-- The value stored in a set field of a message instance. -/
inductive FValue where
  | vInt (n : Int)
  | vStr (s : String)
  | vBool (b : Bool)
  | vMsg (m : List (String × FValue))
  | vStruct (s : List (String × StructValue))
  | vList (items : List FValue)
  | vMap (entries : List (String × FValue))
deriving Repr

/-- A message instance, as the association list of its set fields (a field
absent from the list is unset; protobuf implicit presence). -/
abbrev Msg := List (String × FValue)

/-- A Python exception kind, as far as the engine's `except` clauses
distinguish them. -/
inductive PyErr where
  | typeError
  | valueError
  | attributeError
  | parseError
deriving Repr, DecidableEq

/-- Update-or-append in an association list: the semantics of setting a key
in a Python dict or of setting an attribute / map entry (position of an
existing key is kept, a new key goes to the end). -/
def setEntry {α : Type} : List (String × α) → String → α → List (String × α)
  | [], k, v => [(k, v)]
  | (k', v') :: rest, k, v =>
    if k' == k then (k, v) :: rest else (k', v') :: setEntry rest k v

/-- Association-list lookup (`dict.get`). -/
def lookupEntry {α : Type} (l : List (String × α)) (k : String) : Option α :=
  (l.find? (fun p => p.1 == k)).map (fun p => p.2)

/-- Key membership in an association list. -/
def hasEntry {α : Type} (l : List (String × α)) (k : String) : Bool :=
  l.any (fun p => p.1 == k)

mutual

/-- Conversion of a JSON value to a `google.protobuf.Value`, as performed by
`google.protobuf.json_format.ParseDict` on `Struct`-typed targets. -/
def jsonToStructValue : JsonValue → StructValue
  | .jNull => .sNull
  | .jBool b => .sBool b
  | .jInt n => .sNum n
  | .jStr s => .sStr s
  | .jArr l => .sList (jsonListToStruct l)
  | .jObj l => .sObj (jsonObjToStruct l)

/-- Pointwise `jsonToStructValue` on a JSON array. -/
def jsonListToStruct : List JsonValue → List StructValue
  | [] => []
  | x :: xs => jsonToStructValue x :: jsonListToStruct xs

/-- Pointwise `jsonToStructValue` on a JSON object's entries. -/
def jsonObjToStruct : List (String × JsonValue) → List (String × StructValue)
  | [] => []
  | (k, x) :: xs => (k, jsonToStructValue x) :: jsonObjToStruct xs

end

/-- Top-level entries of the `Struct` produced by `ParseDict` from a JSON
object's entries. -/
def structEntriesOfObj (kvs : List (String × JsonValue)) :
    List (String × StructValue) :=
  jsonObjToStruct kvs

/-- `ParseDict` into an existing `Struct` merges at the top level: each new
key is set (overwriting an existing one) in the target's map. -/
def mergeStructTop (old new : List (String × StructValue)) :
    List (String × StructValue) :=
  new.foldl (fun acc p => setEntry acc p.1 p.2) old

/-- Python `str.isdigit` (restricted to ASCII digits, which covers every
input appearing in the spec's examples): nonempty and all digits. -/
def pyIsDigit (s : String) : Bool :=
  !s.data.isEmpty && s.data.all Char.isDigit

/-- Python `int(...)` on a string of digits. -/
def digitsToInt (s : String) : Int :=
  Int.ofNat (s.data.foldl (fun a c => a * 10 + (c.toNat - 48)) 0)

/-- Python `key.endswith('_')`: the key's last character is an underscore. -/
def endsWithUnderscore (key : String) : Bool :=
  match key.data.getLast? with
  | some c => c == '_'
  | none => false

/-- Python `key[:-1]`: the key without its last character. -/
def dropLastChar (key : String) : String :=
  String.mk key.data.dropLast

/-- Python `name.startswith('_')`: the name's first character is an
underscore. -/
def startsWithUnderscore (n : String) : Bool :=
  match n.data with
  | c :: _ => c == '_'
  | [] => false

/-- Whether a JSON value is an object (`isinstance(value, dict)`). -/
def isJObj : JsonValue → Bool
  | .jObj _ => true
  | _ => false

/-- The protobuf runtime's scalar type check, shared by `setattr` on scalar
fields, `append` on repeated scalar containers and `__setitem__` on scalar
maps: a mismatch raises `TypeError`.  Python `bool` is an `int` subclass, so
integer fields accept booleans; protobuf bool fields accept integers. -/
def scalarCheck (ty : FieldType) (v : JsonValue) : Except PyErr FValue :=
  match ty, v with
  | .ftInt, .jInt n => .ok (.vInt n)
  | .ftInt, .jBool b => .ok (.vInt (if b then 1 else 0))
  | .ftStr, .jStr s => .ok (.vStr s)
  | .ftBool, .jBool b => .ok (.vBool b)
  | .ftBool, .jInt n => .ok (.vBool (decide (n ≠ 0)))
  | _, _ => .error .typeError

/-- `setattr(message, field, value)` for a non-dict, non-list value:
assignment to a repeated/map container or to a composite (message or Struct)
field raises `AttributeError`; a scalar field type-checks the value. -/
def setattrScalar (rep : Bool) (ty : FieldType) (v : JsonValue) :
    Except PyErr FValue :=
  if rep then .error .attributeError
  else
    match ty with
    | .ftMsg _ => .error .attributeError
    | .ftStruct => .error .attributeError
    | .ftMap _ => .error .attributeError
    | _ => scalarCheck ty v

/-- Field-name membership for a descriptor.  `hasattr(message, key)` is also
true for the generated class's methods, but for such a key
`fields_by_name.get` then returns `None` and the key is dropped (line 206-208
of the source), which coincides with the outcome of this field-only test. -/
def hasField (d : Descriptor) (k : String) : Bool :=
  d.any (fun f => f.1 == k)

/-- Field lookup in a descriptor (`DESCRIPTOR.fields_by_name.get`). -/
def lookupField (d : Descriptor) (k : String) : Option (Bool × FieldType) :=
  (d.find? (fun f => f.1 == k)).map (fun f => f.2)

/-- Key resolution of `_populate_message` (lines 190-202): use the key if the
message has it; otherwise, if it ends with an underscore, retry with the
trailing underscore stripped; otherwise the key is dropped. -/
def resolveKey (d : Descriptor) (key : String) : Option String :=
  if hasField d key then some key
  else if endsWithUnderscore key && hasField d (dropLastChar key) then
    some (dropLastChar key)
  else none

/-- The unset default of a scalar field (what `ScalarMapContainer.__getitem__`
inserts for a missing key). -/
def defaultFValue (ty : FieldType) : FValue :=
  match ty with
  | .ftStr => .vStr ""
  | .ftBool => .vBool false
  | _ => .vInt 0

/-- Insert a default entry for a key if absent (the side effect of indexing a
protobuf map with a missing key), leaving an existing entry unchanged. -/
def ensureEntry (l : List (String × FValue)) (k : String) (v : FValue) :
    List (String × FValue) :=
  if hasEntry l k then l else l ++ [(k, v)]

/-- Current entries of a map field (`getattr` on a map field). -/
def getMapField (m : Msg) (k : String) : List (String × FValue) :=
  match lookupEntry m k with
  | some (.vMap es) => es
  | _ => []

/-- Current value of a singular message field (`getattr` auto-vivifies an
empty submessage when unset). -/
def getMsgField (m : Msg) (k : String) : Msg :=
  match lookupEntry m k with
  | some (.vMsg l) => l
  | _ => []

/-- Current content of a singular `Struct` field. -/
def getStructField (m : Msg) (k : String) : List (String × StructValue) :=
  match lookupEntry m k with
  | some (.vStruct s) => s
  | _ => []

/-- Current items of a repeated field (`getattr` on a repeated field). -/
def getListField (m : Msg) (k : String) : List FValue :=
  match lookupEntry m k with
  | some (.vList l) => l
  | _ => []

/-- Current message content of a map entry (`MessageMapContainer.__getitem__`
creates an empty entry for a missing key). -/
def getMsgEntry (l : List (String × FValue)) (k : String) : Msg :=
  match lookupEntry l k with
  | some (.vMsg m) => m
  | _ => []

/-- Current `Struct` content of a map entry. -/
def getStructEntry (l : List (String × FValue)) (k : String) :
    List (String × StructValue) :=
  match lookupEntry l k with
  | some (.vStruct s) => s
  | _ => []

/-- The loop appending JSON array items to a repeated scalar container
(lines 250-255 for a scalar-typed repeated field): a dict item triggers
`field.add()`, which a scalar container lacks (`AttributeError`); any other
item is `field.append(item)`, which type-checks.  An exception here is not
caught and propagates. -/
def appendScalarLoop (ty : FieldType) (cur : List FValue) :
    List JsonValue → List FValue × Option PyErr
  | [] => (cur, none)
  | item :: rest =>
    match item with
    | .jObj _ => (cur, some .attributeError)
    | _ =>
      match scalarCheck ty item with
      | .ok fv => appendScalarLoop ty (cur ++ [fv]) rest
      | .error e => (cur, some e)

/-- The loop appending JSON array items to a repeated `Struct` field: a dict
item gets a fresh `field.add()` entry that the recursive
`_populate_message` call then leaves empty (no JSON key resolves against the
`Struct` message's own attribute set in the claims' scope); a non-dict item
makes `append` on the composite container raise. -/
def structAppendLoop (cur : List FValue) :
    List JsonValue → List FValue × Option PyErr
  | [] => (cur, none)
  | item :: rest =>
    match item with
    | .jObj _ => structAppendLoop (cur ++ [.vStruct []]) rest
    | _ => (cur, some .typeError)

/-- Outcome of the `try` block of lines 205-238: `done` means a `continue`
was executed, `fall` means control reaches the generic handling of
lines 243-265 (either by falling off the block or because the
`except Exception: pass` of lines 239-241 absorbed an exception); mutations
made before an absorbed exception persist in the carried message. -/
inductive TryOut where
  | done (m : Msg)
  | fall (m : Msg)

mutual

/-- Lines 190-265 of `_populate_message`: process the key/value pairs of a
JSON object in order.  The `Option PyErr` component is an uncaught Python
exception propagating out of the call; the message component carries the
mutations performed so far (they persist on the Python object even when an
exception escapes). -/
def populateFields (d : Descriptor) (m : Msg) :
    List (String × JsonValue) → Msg × Option PyErr
  | [] => (m, none)
  | (k, v) :: rest =>
    match populateKey d m k v with
    | (m', none) => populateFields d m' rest
    | (m', some e) => (m', some e)
termination_by kvs => (sizeOf kvs, 0)
decreasing_by all_goals simp_wf <;> omega

/-- The `try` block of lines 205-238 (Struct and map handling): `done` means
a `continue` was executed; `fall` means control reaches the generic handling
of lines 243-265, either by falling off the block or because the
`except Exception: pass` of lines 239-241 absorbed an exception raised
inside it (mutations made before the exception persist). -/
def structMapPart (rep : Bool) (ty : FieldType) (m : Msg) (ak : String)
    (v : JsonValue) : TryOut :=
  match ty with
  | .ftStruct =>
    -- lines 211-217: singular Struct field with a dict value is ParseDict-ed
    -- (never fails on JSON input) and continues; on a repeated Struct field
    -- ParseDict raises on the container and the exception is absorbed; a
    -- non-dict value falls through.
    if rep then .fall m
    else
      match v with
      | .jObj kvs =>
        .done (setEntry m ak (.vStruct
          (mergeStructTop (getStructField m ak) (structEntriesOfObj kvs))))
      | _ => .fall m
  | .ftMap valTy =>
    -- lines 219-238: map field; a dict value is iterated entry by entry and
    -- continues; an exception inside is absorbed by lines 239-241 with the
    -- mutations made so far kept.
    match v with
    | .jObj entries =>
      match mapEntriesLoop valTy (getMapField m ak) entries with
      | (es, none) => .done (setEntry m ak (.vMap es))
      | (es, some _) => .fall (setEntry m ak (.vMap es))
    | _ => .fall m
  | _ => .fall m
termination_by (sizeOf v, 1)
decreasing_by all_goals simp_wf <;> omega

/-- The generic handling of lines 243-265, reached when the `try` block did
not `continue`. -/
def genericPart (d : Descriptor) (rep : Bool) (ty : FieldType) (m1 : Msg)
    (ak : String) (v : JsonValue) : Msg × Option PyErr :=
  match v with
  | .jObj kvs =>
    -- lines 243-246: nested message; on a non-message target the recursive
    -- call resolves no keys and is a no-op.
    match ty, rep with
    | .ftMsg nd, false =>
      match populateFields nd (getMsgField m1 ak) kvs with
      | (m2, e) => (setEntry m1 ak (.vMsg m2), e)
    | _, _ => (m1, none)
  | .jArr items =>
    -- lines 247-255: repeated field; on a non-repeated target `field.add()`
    -- or `field.append` raise AttributeError (uncaught) as soon as the
    -- first item is processed.
    match ty, rep with
    | .ftMsg nd, true =>
      match appendLoop nd (getListField m1 ak) items with
      | (l2, e) => (setEntry m1 ak (.vList l2), e)
    | .ftStruct, true =>
      match structAppendLoop (getListField m1 ak) items with
      | (l2, e) => (setEntry m1 ak (.vList l2), e)
    | .ftInt, true =>
      match appendScalarLoop .ftInt (getListField m1 ak) items with
      | (l2, e) => (setEntry m1 ak (.vList l2), e)
    | .ftStr, true =>
      match appendScalarLoop .ftStr (getListField m1 ak) items with
      | (l2, e) => (setEntry m1 ak (.vList l2), e)
    | .ftBool, true =>
      match appendScalarLoop .ftBool (getListField m1 ak) items with
      | (l2, e) => (setEntry m1 ak (.vList l2), e)
    | _, _ =>
      if items.isEmpty then (m1, none) else (m1, some .attributeError)
  | _ =>
    -- lines 256-265: simple field with coercion fallback.  Only
    -- TypeError/ValueError are caught; the retries of lines 263 and 265 are
    -- outside any try, so their exceptions propagate.
    match setattrScalar rep ty v with
    | .ok fv => (setEntry m1 ak fv, none)
    | .error .typeError | .error .valueError =>
      match v with
      | .jStr s =>
        if pyIsDigit s then
          match setattrScalar rep ty (.jInt (digitsToInt s)) with
          | .ok fv => (setEntry m1 ak fv, none)
          | .error e2 => (m1, some e2)
        else (m1, none)
      | .jInt _ | .jBool _ =>
        match setattrScalar rep ty v with
        | .ok fv => (setEntry m1 ak fv, none)
        | .error e2 => (m1, some e2)
      | _ => (m1, none)
    | .error e => (m1, some e)
termination_by (sizeOf v, 1)
decreasing_by all_goals simp_wf <;> omega

/-- The body of `_populate_message`'s loop for one key/value pair
(lines 191-265): key resolution, then the Struct/map `try` block, then the
generic handling when that block did not `continue`. -/
def populateKey (d : Descriptor) (m : Msg) (key : String) (v : JsonValue) :
    Msg × Option PyErr :=
  match resolveKey d key with
  | none => (m, none)
  | some ak =>
    match lookupField d ak with
    | none => (m, none)
    | some (rep, ty) =>
      match structMapPart rep ty m ak v with
      | .done m1 => (m1, none)
      | .fall m1 => genericPart d rep ty m1 ak v
termination_by (sizeOf v, 2)
decreasing_by all_goals simp_wf <;> omega

/-- Lines 224-237: the per-entry loop over a JSON object assigned to a map
field.  Evaluation order matters: indexing `map_field[map_key]` creates the
entry before `ParseDict` can raise on a non-dict value (line 230). -/
def mapEntriesLoop (valTy : FieldType) (cur : List (String × FValue)) :
    List (String × JsonValue) → List (String × FValue) × Option PyErr
  | [] => (cur, none)
  | (mk, mv) :: rest =>
    match valTy with
    | .ftStruct =>
      match mv with
      | .jObj kvs =>
        mapEntriesLoop valTy
          (setEntry cur mk (.vStruct
            (mergeStructTop (getStructEntry cur mk) (structEntriesOfObj kvs))))
          rest
      | _ =>
        (ensureEntry cur mk (.vStruct []), some .parseError)
    | .ftMsg nd =>
      match mv with
      | .jObj kvs =>
        match populateFields nd (getMsgEntry cur mk) kvs with
        | (m2, none) => mapEntriesLoop valTy (setEntry cur mk (.vMsg m2)) rest
        | (m2, some e) => (setEntry cur mk (.vMsg m2), some e)
      | _ => (cur, some .typeError)
    | _ =>
      match mv with
      | .jObj _ =>
        -- `nested = map_field[map_key]` creates a default scalar entry and
        -- the recursive populate call on a scalar is a no-op.
        mapEntriesLoop valTy (ensureEntry cur mk (defaultFValue valTy)) rest
      | _ =>
        match scalarCheck valTy mv with
        | .ok fv => mapEntriesLoop valTy (setEntry cur mk fv) rest
        | .error e => (cur, some e)
termination_by entries => (sizeOf entries, 0)
decreasing_by all_goals simp_wf <;> omega

/-- Lines 247-253 for a repeated message field: `field.add()` appends a
fresh instance before the recursive populate call, so a partially populated
appended instance persists when that call raises. -/
def appendLoop (nd : Descriptor) (cur : List FValue) :
    List JsonValue → List FValue × Option PyErr
  | [] => (cur, none)
  | item :: rest =>
    match item with
    | .jObj kvs =>
      match populateFields nd [] kvs with
      | (mi, none) => appendLoop nd (cur ++ [.vMsg mi]) rest
      | (mi, some e) => (cur ++ [.vMsg mi], some e)
    | _ => (cur, some .typeError)
termination_by items => (sizeOf items, 0)
decreasing_by all_goals simp_wf <;> omega

end

/-- `_populate_message(message, data)` itself (lines 182-265): only a dict
populates fields; any other JSON shape returns with nothing set. -/
def populateMessage (d : Descriptor) (m : Msg) (data : JsonValue) :
    Msg × Option PyErr :=
  match data with
  | .jObj kvs => populateFields d m kvs
  | _ => (m, none)

/-- An attribute of the `protoc`-generated Python module: a generated message
class (carrying its descriptor), or any other module attribute such as
`DESCRIPTOR` (a file-descriptor object) or an enum wrapper — calling such an
attribute as a class raises. -/
inductive ModAttr where
  | msgClass (d : Descriptor)
  | otherAttr
deriving Repr

/-- A generated Python module, as its attribute table (what `getattr` and
`dir` consult). -/
abbrev PbModule := List (String × ModAttr)

/-- The failure kinds `_encode_to_protobuf` distinguishes (each is a distinct
log message followed by `return None`; the broad `except` of lines 178-180
yields the generic encoding failure). -/
inductive EncFailure where
  | compileFail (diag : String)
  | importFail
  | typeNotFound (available : List String)
  | encodeError
deriving Repr

/-- `getattr(proto_module, message_type)` as a lookup in the module's
attribute table. -/
def lookupAttr (mod : PbModule) (name : String) : Option ModAttr :=
  (mod.find? (fun a => a.1 == name)).map (fun a => a.2)

/-- Line 161: the diagnostic list built on a failed `getattr` —
`[name for name in dir(proto_module) if not name.startswith('_')]`. -/
def availableTypes (mod : PbModule) : List String :=
  (mod.map (fun a => a.1)).filter (fun n => !(startsWithUnderscore n))

/-- The names of the module's generated message classes — the message types
of the compiled descriptor set. -/
def msgClassNames (mod : PbModule) : List String :=
  mod.filterMap (fun a =>
    match a.2 with
    | .msgClass _ => some a.1
    | .otherAttr => none)

/-- Lines 157-180 of `_encode_to_protobuf`, from message-class lookup to
serialization, for an already imported module: a missing attribute is the
type-not-found failure carrying the available-name list; a non-class
attribute raises when called at line 167 and the broad `except` of
lines 178-180 turns it — like any exception escaping `_populate_message` —
into the generic encoding failure.  `SerializeToString` never fails on a
populated instance and is abstracted as returning the instance itself. -/
def encodeFromModule (mod : PbModule) (messageType : String)
    (data : JsonValue) : Except EncFailure Msg :=
  match lookupAttr mod messageType with
  | none => .error (.typeNotFound (availableTypes mod))
  | some .otherAttr => .error .encodeError
  | some (.msgClass d) =>
    match populateMessage d [] data with
    | (m, none) => .ok m
    | (_, some _) => .error .encodeError

/-- The process-global interpreter state relevant to the engine:
`sys.modules`, Python's cache of already imported modules. -/
structure SysState where
  modules : List (String × PbModule)
deriving Repr

/-- Lines 148-151: `sys.path.insert(0, temp_dir)` followed by `__import__`.
Python's import system consults `sys.modules` first: a module name imported
by an earlier request is returned from the cache and the freshly compiled
module in the new temporary directory is never loaded; on a cache miss the
fresh module is loaded and cached. -/
def importModule (st : SysState) (name : String) (fresh : PbModule) :
    PbModule × SysState :=
  match (st.modules.find? (fun p => p.1 == name)).map (fun p => p.2) with
  | some cached => (cached, st)
  | none => (fresh, ⟨(name, fresh) :: st.modules⟩)

/-- One `_encode_to_protobuf` request after the `protoc` step: the freshly
compiled module for this request is handed to `__import__` (which may ignore
it in favour of `sys.modules`), then lookup, population and serialization
run on whichever module `__import__` returned. -/
def handleEncodeOnce (st : SysState) (moduleName : String)
    (freshCompiled : PbModule) (messageType : String) (data : JsonValue) :
    Except EncFailure Msg × SysState :=
  match importModule st moduleName freshCompiled with
  | (mod, st') => (encodeFromModule mod messageType data, st')

/-- The staged filesystem of schema files: each file is its path paired with
its lines.  Paths are compared literally, as the `Path` equality used by the
`seen` set compares the joined paths the code constructs. -/
abbrev ProtoFS := List (String × List String)

/-- Whether a path exists in the staged filesystem
(`full_import_path.exists()`). -/
def fsHas (fs : ProtoFS) (p : String) : Bool :=
  fs.any (fun f => f.1 == p)

/-- The lines of a file; a missing (or unreadable) file contributes no lines,
matching the `except` of lines 291-292 that turns a failed `open` into a
warning. -/
def linesOf (fs : ProtoFS) (p : String) : List String :=
  ((fs.find? (fun f => f.1 == p)).map (fun f => f.2)).getD []

/-- `pathlib`'s `/` join of the include root and an import path. -/
def joinPath (root imp : String) : String :=
  root ++ "/" ++ imp

/-- Python `str.strip` on a line (drop leading and trailing whitespace). -/
def stripLine (l : List Char) : List Char :=
  ((l.dropWhile Char.isWhitespace).reverse.dropWhile Char.isWhitespace).reverse

/-- Python `str.split('"')` on a line's characters. -/
def splitOnQuote : List Char → List (List Char)
  | [] => [[]]
  | c :: rest =>
    if c = '"' then [] :: splitOnQuote rest
    else
      match splitOnQuote rest with
      | [] => [[c]]
      | h :: t => (c :: h) :: t

/-- Lines 280-285: recognize `import "<path>";` in a stripped line — the line
must start with `import ` and the first quote-delimited chunk is the import
path (`line.split('"')[1]` when the split has at least two parts). -/
def parseImportLine (line : String) : Option String :=
  let l := stripLine line.data
  if ("import ".data).isPrefixOf l then
    match splitOnQuote l with
    | _ :: p :: _ => some (String.mk p)
    | _ => none
  else none


/-- The number of files of the staged filesystem not yet in the visited set —
the quantity the recursion of `parse_imports` strictly decreases. -/
def unvisited (fs : ProtoFS) (seen : List String) : Nat :=
  (fs.map (fun f => f.1)).countP (fun p => !(seen.contains p))

theorem unvisited_mono (fs : ProtoFS) {s t : List String}
    (h : ∀ x, x ∈ s → x ∈ t) : unvisited fs t ≤ unvisited fs s := by
  apply List.countP_mono_left
  intro a _ ha
  simp only [Bool.not_eq_true'] at ha ⊢
  have hat : a ∉ t := by simpa using ha
  have has : a ∉ s := fun hs => hat (h a hs)
  simpa using has

theorem countP_notmem_strict {x : String} {seen : List String} {l : List String}
    (hmem : x ∈ l) (hns : x ∉ seen) :
    l.countP (fun p => !((x :: seen).contains p)) <
      l.countP (fun p => !(seen.contains p)) := by
  obtain ⟨l1, l2, rfl⟩ := List.append_of_mem hmem
  have h1 : l1.countP (fun p => !((x :: seen).contains p)) ≤
      l1.countP (fun p => !(seen.contains p)) := by
    apply List.countP_mono_left
    intro a _ ha
    have h0 : a ∉ x :: seen := by simpa using ha
    have : a ∉ seen := fun hs => h0 (List.mem_cons_of_mem _ hs)
    simpa using this
  have h2 : l2.countP (fun p => !((x :: seen).contains p)) ≤
      l2.countP (fun p => !(seen.contains p)) := by
    apply List.countP_mono_left
    intro a _ ha
    have h0 : a ∉ x :: seen := by simpa using ha
    have : a ∉ seen := fun hs => h0 (List.mem_cons_of_mem _ hs)
    simpa using this
  have hx1 : (!((x :: seen).contains x)) = false := by simp
  have hx2 : (!(seen.contains x)) = true := by simpa using hns
  simp only [List.countP_append, List.countP_cons, hx1, hx2]
  simp only [Bool.false_eq_true, if_false, if_true]
  omega

theorem unvisited_strict (fs : ProtoFS) {x : String} {seen : List String}
    (hx : fsHas fs x = true) (hns : x ∉ seen) :
    unvisited fs (x :: seen) < unvisited fs seen := by
  have hmem : x ∈ fs.map (fun f => f.1) := by
    unfold fsHas at hx
    rcases List.any_eq_true.mp hx with ⟨f, hf, hfx⟩
    exact List.mem_map.mpr ⟨f, hf, by simpa using (beq_iff_eq.mp hfx)⟩
  exact countP_notmem_strict hmem hns

/-- The recursion of `parse_imports` (lines 272-290), inlined at its call
sites: for each line of the current file, a recognized import that exists
under the include root is appended to the result and — unless its path is
already in the visited set — its own lines are scanned first with the path
added to the visited set.  The returned pair is (visited set, appended
list of imports); the attached invariant (the visited set only grows) is what
makes the recursion well founded on cyclic import graphs. -/
def scanLines (fs : ProtoFS) (root : String) :
    (lines : List String) → (seen acc : List String) →
    {p : List String × List String // ∀ x, x ∈ seen → x ∈ p.1}
  | [], seen, acc => ⟨(seen, acc), fun _ h => h⟩
  | _line :: rest, seen, acc =>
    match parseImportLine _line with
    | none => scanLines fs root rest seen acc
    | some imp =>
      if hfull : fsHas fs (joinPath root imp) then
        if hseen : (joinPath root imp) ∈ seen then
          scanLines fs root rest seen (acc ++ [joinPath root imp])
        else
          match scanLines fs root (linesOf fs (joinPath root imp))
              (joinPath root imp :: seen) (acc ++ [joinPath root imp]) with
          | ⟨(seen1, acc1), hsub1⟩ =>
            match scanLines fs root rest seen1 acc1 with
            | ⟨p2, hsub2⟩ =>
              ⟨p2, fun x hx =>
                hsub2 x (hsub1 x (List.mem_cons_of_mem _ hx))⟩
      else scanLines fs root rest seen acc
termination_by lines seen _ => (unvisited fs seen, lines.length)
decreasing_by
  · apply Prod.Lex.right; simp
  · apply Prod.Lex.right; simp
  · apply Prod.Lex.left; exact unvisited_strict fs hfull hseen
  · apply Prod.Lex.left
    have hle : unvisited fs seen1 ≤ unvisited fs (joinPath root imp :: seen) :=
      unvisited_mono fs (fun x hx => hsub1 x hx)
    exact Nat.lt_of_le_of_lt hle (unvisited_strict fs hfull hseen)

/-- `_find_proto_imports(proto_file, proto_root)` (lines 267-295): scan the
root schema file with the visited set initialized to it, returning the
appended import list. -/
def findProtoImports (fs : ProtoFS) (root : String) (protoFile : String) :
    List String :=
  (scanLines fs root (linesOf fs protoFile) [protoFile] []).val.2

/-- `list(dict.fromkeys(...))` (line 119): deduplicate keeping the first
occurrence of each element, preserving order. -/
def dedupKeepFirst (l : List String) : List String :=
  l.foldl (fun acc x => if acc.contains x then acc else acc ++ [x]) []

/-- Lines 112-119 of `_encode_to_protobuf`: the deduplicated file list handed
to `protoc` — the root schema first, followed by its transitive imports when
an include root was configured. -/
def protoFilesToCompile (fs : ProtoFS) (root : String) (protoFile : String)
    (protoRootGiven : Bool) : List String :=
  dedupKeepFirst
    (protoFile ::
      (if protoRootGiven then findProtoImports fs root protoFile else []))

theorem hasField_of_lookupField {d : Descriptor} {k : String}
    {r : Bool × FieldType} (h : lookupField d k = some r) :
    hasField d k = true := by
  unfold lookupField at h
  cases hf : d.find? (fun f => f.1 == k) with
  | none => rw [hf] at h; simp at h
  | some f =>
    have hm := List.mem_of_find?_eq_some hf
    have hp := List.find?_some hf
    exact List.any_eq_true.mpr ⟨f, hm, hp⟩

theorem resolveKey_of_lookupField {d : Descriptor} {k : String}
    {r : Bool × FieldType} (h : lookupField d k = some r) :
    resolveKey d k = some k := by
  simp [resolveKey, hasField_of_lookupField h]

theorem populateFields_cons_ok {d : Descriptor} {m m' : Msg} {k : String}
    {v : JsonValue} (rest : List (String × JsonValue))
    (h : populateKey d m k v = (m', none)) :
    populateFields d m ((k, v) :: rest) = populateFields d m' rest := by
  simp only [populateFields, h]

theorem populateFields_cons_err {d : Descriptor} {m m' : Msg} {k : String}
    {v : JsonValue} {e : PyErr} (rest : List (String × JsonValue))
    (h : populateKey d m k v = (m', some e)) :
    populateFields d m ((k, v) :: rest) = (m', some e) := by
  simp only [populateFields, h]

/-- Claim C2: during population an exact field-name match takes priority;
otherwise a key ending with an underscore resolves to the field named by the
key with the trailing underscore stripped when that field exists; otherwise
the key is silently dropped and never causes a failure.  In particular the
key header_ populates a field named header when no field named header_
exists, and populates the field named header_ when one exists. -/
theorem c2_field_name_resolution :
    (∀ (d : Descriptor) (k : String), hasField d k = true →
      resolveKey d k = some k) ∧
    (∀ (d : Descriptor) (k : String), hasField d k = false →
      endsWithUnderscore k = true → hasField d (dropLastChar k) = true →
      resolveKey d k = some (dropLastChar k)) ∧
    (∀ (d : Descriptor) (k : String) (m : Msg) (v : JsonValue),
      hasField d k = false →
      (endsWithUnderscore k = true → hasField d (dropLastChar k) = false) →
      populateKey d m k v = (m, none)) ∧
    (populateKey [("header", (false, .ftInt))] [] "header_" (.jInt 7)
      = ([("header", .vInt 7)], none)) ∧
    (populateKey [("header_", (false, .ftInt)), ("header", (false, .ftInt))]
        [] "header_" (.jInt 7)
      = ([("header_", .vInt 7)], none)) := by
  refine ⟨?_, ?_, ?_, ?_, ?_⟩
  · intro d k h
    simp [resolveKey, h]
  · intro d k h hew hstr
    simp [resolveKey, h, hew, hstr]
  · intro d k m v h himp
    by_cases hew : endsWithUnderscore k = true
    · have hstr := himp hew
      simp [populateKey, resolveKey, h, hew, hstr]
    · simp only [Bool.not_eq_true] at hew
      simp [populateKey, resolveKey, h, hew]
  · simp [populateKey, resolveKey, hasField, lookupField, endsWithUnderscore,
      dropLastChar, structMapPart, genericPart, setattrScalar, scalarCheck,
      setEntry]
  · simp [populateKey, resolveKey, hasField, lookupField, endsWithUnderscore,
      dropLastChar, structMapPart, genericPart, setattrScalar, scalarCheck,
      setEntry]

theorem c2_field_name_resolution_witness :
    resolveKey [("a", (false, FieldType.ftInt))] "a" = some "a" ∧
    resolveKey [("a", (false, FieldType.ftInt))] "a_" = some "a" ∧
    populateKey [("a", (false, FieldType.ftInt))] [] "zz" (.jInt 1)
      = ([], none) :=
  ⟨c2_field_name_resolution.1 _ "a" (by decide),
   c2_field_name_resolution.2.1 _ "a_" (by decide) (by decide) (by decide),
   c2_field_name_resolution.2.2.1 _ "zz" [] _ (by decide)
     (fun h => by simp [endsWithUnderscore] at h)⟩

/-- Claim C3: a scalar integer field given the JSON string "42" is set to
the integer 42 by the digit-string coercion fallback, and given the JSON
string "abc" is left unset with no failure, population continuing with the
remaining keys. -/
theorem c3_digit_string_coercion :
    ∀ (d : Descriptor) (m : Msg) (k : String)
      (rest : List (String × JsonValue)),
      lookupField d k = some (false, .ftInt) →
      populateFields d m ((k, .jStr "42") :: rest)
          = populateFields d (setEntry m k (.vInt 42)) rest ∧
      populateFields d m ((k, .jStr "abc") :: rest)
          = populateFields d m rest := by
  intro d m k rest h
  have h42 : pyIsDigit "42" = true := by decide
  have h42v : digitsToInt "42" = 42 := by decide
  have habc : pyIsDigit "abc" = false := by decide
  constructor
  · apply populateFields_cons_ok
    simp [populateKey, resolveKey_of_lookupField h, h, structMapPart,
      genericPart, setattrScalar, scalarCheck, h42, h42v]
  · apply populateFields_cons_ok
    simp [populateKey, resolveKey_of_lookupField h, h, structMapPart,
      genericPart, setattrScalar, scalarCheck, habc]

theorem c3_digit_string_coercion_witness :
    populateFields [("n", (false, .ftInt))] [] [("n", .jStr "42")]
        = populateFields [("n", (false, .ftInt))] [("n", .vInt 42)] [] ∧
    populateFields [("n", (false, .ftInt))] [] [("n", .jStr "abc")]
        = populateFields [("n", (false, .ftInt))] [] [] := by
  have := c3_digit_string_coercion [("n", (false, .ftInt))] [] "n" []
    (by simp [lookupField])
  simpa [setEntry] using this

/-- Claim C1 counterexample: a single field whose direct assignment fails
with a type mismatch and whose coercion retry also fails makes the engine
return a failure for the whole message — here a string field given the JSON
number 5 (the numeric retry of line 265 raises again, uncaught), with a
second, perfectly valid field left unprocessed. -/
theorem c1_counterexample :
    encodeFromModule
        [("M", ModAttr.msgClass
          [("name", (false, .ftStr)), ("note", (false, .ftStr))])]
        "M" (.jObj [("name", .jInt 5), ("note", .jStr "x")])
      = .error .encodeError := by
  simp [encodeFromModule, lookupAttr, populateMessage, populateFields,
    populateKey, resolveKey, hasField, lookupField, structMapPart,
    genericPart, setattrScalar, scalarCheck, setEntry]

/-- Claim C1 (amended): population is best-effort per field only when the
coercion fallback does not apply — a scalar whose direct assignment fails
with a type mismatch and which is neither a digit string nor numeric leaves
the field unset and population continues; but when a coercion branch does
apply and its retry fails too (for example a numeric value on a string
field), the retry's exception is uncaught, aborts population of the whole
message, and makes the engine return a failure. -/
theorem c1_best_effort_amended :
    (∀ (d : Descriptor) (m : Msg) (k s : String)
       (rest : List (String × JsonValue)),
       lookupField d k = some (false, .ftInt) → pyIsDigit s = false →
       populateFields d m ((k, .jStr s) :: rest) = populateFields d m rest) ∧
    (∀ (d : Descriptor) (m : Msg) (k : String) (n : Int)
       (rest : List (String × JsonValue)),
       lookupField d k = some (false, .ftStr) →
       populateFields d m ((k, .jInt n) :: rest) = (m, some .typeError)) := by
  constructor
  · intro d m k s rest h hs
    apply populateFields_cons_ok
    simp [populateKey, resolveKey_of_lookupField h, h, structMapPart,
      genericPart, setattrScalar, scalarCheck, hs]
  · intro d m k n rest h
    apply populateFields_cons_err
    simp [populateKey, resolveKey_of_lookupField h, h, structMapPart,
      genericPart, setattrScalar, scalarCheck]

theorem c1_best_effort_amended_witness :
    populateFields [("n", (false, .ftInt))] [] [("n", .jStr "abc")]
        = populateFields [("n", (false, .ftInt))] [] [] ∧
    populateFields [("s", (false, .ftStr))] [] [("s", .jInt 5)]
        = ([], some .typeError) :=
  ⟨c1_best_effort_amended.1 [("n", (false, .ftInt))] [] "n" "abc" []
      (by simp [lookupField]) (by decide),
   c1_best_effort_amended.2 [("s", (false, .ftStr))] [] "s" 5 []
      (by simp [lookupField])⟩

theorem getMapField_of_unset {m : Msg} {k : String}
    (h : lookupEntry m k = none) : getMapField m k = [] := by
  simp [getMapField, h]

theorem getListField_of_unset {m : Msg} {k : String}
    (h : lookupEntry m k = none) : getListField m k = [] := by
  simp [getListField, h]

/-- Claim C4: a map field whose value type is google.protobuf.Struct, given
the JSON object with entries a to the object x:1 and b to the object y:"z",
produces exactly two map entries whose values are Struct wrappers holding
those objects — not nested messages of the schema's own value type. -/
theorem c4_map_struct_values :
    ∀ (d : Descriptor) (m : Msg) (k : String)
      (rest : List (String × JsonValue)),
      lookupField d k = some (true, .ftMap .ftStruct) →
      lookupEntry m k = none →
      populateFields d m
          ((k, .jObj [("a", .jObj [("x", .jInt 1)]),
                      ("b", .jObj [("y", .jStr "z")])]) :: rest)
        = populateFields d
            (setEntry m k (.vMap
              [("a", .vStruct [("x", .sNum 1)]),
               ("b", .vStruct [("y", .sStr "z")])])) rest := by
  intro d m k rest h hm
  apply populateFields_cons_ok
  have hloop : mapEntriesLoop .ftStruct []
      [("a", .jObj [("x", .jInt 1)]), ("b", .jObj [("y", .jStr "z")])]
      = ([("a", .vStruct [("x", .sNum 1)]), ("b", .vStruct [("y", .sStr "z")])],
         none) := by
    simp [mapEntriesLoop, setEntry, getStructEntry, lookupEntry, mergeStructTop,
      structEntriesOfObj, jsonObjToStruct, jsonToStructValue]
  simp [populateKey, resolveKey_of_lookupField h, h, structMapPart,
    getMapField_of_unset hm, hloop]

theorem c4_map_struct_values_witness :
    populateFields [("attrs", (true, .ftMap .ftStruct))] []
        [("attrs", .jObj [("a", .jObj [("x", .jInt 1)]),
                          ("b", .jObj [("y", .jStr "z")])])]
      = populateFields [("attrs", (true, .ftMap .ftStruct))]
          [("attrs", .vMap
            [("a", .vStruct [("x", .sNum 1)]),
             ("b", .vStruct [("y", .sStr "z")])])] [] := by
  have := c4_map_struct_values [("attrs", (true, .ftMap .ftStruct))] [] "attrs"
    [] (by simp [lookupField]) (by simp [lookupEntry])
  simpa [setEntry] using this

theorem appendScalarLoop_ints (cur : List FValue) (ns : List Int) :
    appendScalarLoop .ftInt cur (ns.map JsonValue.jInt)
      = (cur ++ ns.map FValue.vInt, none) := by
  induction ns generalizing cur with
  | nil => simp [appendScalarLoop]
  | cons n ns ih => simp [appendScalarLoop, scalarCheck, ih]

/-- Claim C8: a repeated message field given the JSON array of the objects
id:1 and id:2 gets exactly two nested-message entries appended in input
order; and array elements of a repeated scalar field are appended as raw
scalars preserving array order. -/
theorem c8_repeated_order :
    (∀ (d nd : Descriptor) (m : Msg) (k : String)
       (rest : List (String × JsonValue)),
       lookupField d k = some (true, .ftMsg nd) →
       lookupField nd "id" = some (false, .ftInt) →
       lookupEntry m k = none →
       populateFields d m
           ((k, .jArr [.jObj [("id", .jInt 1)], .jObj [("id", .jInt 2)]])
             :: rest)
         = populateFields d
             (setEntry m k (.vList
               [.vMsg [("id", .vInt 1)], .vMsg [("id", .vInt 2)]])) rest) ∧
    (∀ (d : Descriptor) (m : Msg) (k : String) (ns : List Int)
       (rest : List (String × JsonValue)),
       lookupField d k = some (true, .ftInt) →
       lookupEntry m k = none →
       populateFields d m ((k, .jArr (ns.map JsonValue.jInt)) :: rest)
         = populateFields d (setEntry m k (.vList (ns.map FValue.vInt)))
             rest) := by
  constructor
  · intro d nd m k rest h hid hm
    apply populateFields_cons_ok
    have hk1 : populateKey nd [] "id" (.jInt 1) = ([("id", .vInt 1)], none) := by
      simp [populateKey, resolveKey_of_lookupField hid, hid, structMapPart,
        genericPart, setattrScalar, scalarCheck, setEntry]
    have hk2 : populateKey nd [] "id" (.jInt 2) = ([("id", .vInt 2)], none) := by
      simp [populateKey, resolveKey_of_lookupField hid, hid, structMapPart,
        genericPart, setattrScalar, scalarCheck, setEntry]
    have hp1 : populateFields nd [] [("id", .jInt 1)] = ([("id", .vInt 1)], none) := by
      rw [populateFields_cons_ok _ hk1]
      simp [populateFields]
    have hp2 : populateFields nd [] [("id", .jInt 2)] = ([("id", .vInt 2)], none) := by
      rw [populateFields_cons_ok _ hk2]
      simp [populateFields]
    simp [populateKey, resolveKey_of_lookupField h, h, structMapPart,
      genericPart, getListField_of_unset hm, appendLoop, hp1, hp2]
  · intro d m k ns rest h hm
    apply populateFields_cons_ok
    simp [populateKey, resolveKey_of_lookupField h, h, structMapPart,
      genericPart, getListField_of_unset hm, appendScalarLoop_ints]

theorem c8_repeated_order_witness :
    populateFields [("items", (true, .ftMsg [("id", (false, .ftInt))]))] []
        [("items", .jArr [.jObj [("id", .jInt 1)], .jObj [("id", .jInt 2)]])]
      = populateFields [("items", (true, .ftMsg [("id", (false, .ftInt))]))]
          [("items", .vList [.vMsg [("id", .vInt 1)], .vMsg [("id", .vInt 2)]])]
          [] ∧
    populateFields [("ns", (true, .ftInt))] [] [("ns", .jArr [.jInt 3, .jInt 4])]
      = populateFields [("ns", (true, .ftInt))]
          [("ns", .vList [.vInt 3, .vInt 4])] [] := by
  constructor
  · have := c8_repeated_order.1 [("items", (true, .ftMsg [("id", (false, .ftInt))]))]
      [("id", (false, .ftInt))] [] "items" []
      (by simp [lookupField]) (by simp [lookupField]) (by simp [lookupEntry])
    simpa [setEntry] using this
  · have := c8_repeated_order.2 [("ns", (true, .ftInt))] [] "ns" [3, 4] []
      (by simp [lookupField]) (by simp [lookupEntry])
    simpa [setEntry] using this

/-- Claim C10 counterexample: a map field with Struct values given an entry
whose JSON value is not an object does not make the engine fail — the
ParseDict error raised at line 230 is caught by the per-key except of
lines 239-241, the failing entry is left as an empty wrapper (created by
indexing the map before the parse), and encoding returns success. -/
theorem c10_counterexample :
    encodeFromModule
        [("M", ModAttr.msgClass [("attrs", (true, .ftMap .ftStruct))])] "M"
        (.jObj [("attrs", .jObj [("a", .jInt 5)])])
      = .ok [("attrs", .vMap [("a", .vStruct [])])] := by
  simp [encodeFromModule, lookupAttr, populateMessage, populateFields,
    populateKey, resolveKey, hasField, lookupField, structMapPart, genericPart,
    mapEntriesLoop, getMapField, lookupEntry, ensureEntry, hasEntry, setEntry]

/-- Claim C10 (amended): for a map field with Struct values, an entry whose
JSON value is not an object is passed to the wrapper parser without an
object check, but the parse exception does not propagate out of population:
it is absorbed by the per-key exception guard of lines 239-241, the failing
entry remains as an empty wrapper (created by indexing the map before the
parse), the remaining entries of that map are skipped, the fall-through
generic handling is a no-op on the map container, and the engine returns
success for the message rather than an encode failure. -/
theorem c10_map_struct_nonobject_amended :
    ∀ (d : Descriptor) (m : Msg) (k mk : String) (mval : JsonValue)
      (restEntries : List (String × JsonValue))
      (rest : List (String × JsonValue)),
      lookupField d k = some (true, .ftMap .ftStruct) →
      lookupEntry m k = none →
      isJObj mval = false →
      populateFields d m ((k, .jObj ((mk, mval) :: restEntries)) :: rest)
        = populateFields d (setEntry m k (.vMap [(mk, .vStruct [])])) rest := by
  intro d m k mk mval restEntries rest h hm hobj
  apply populateFields_cons_ok
  have hloop : mapEntriesLoop .ftStruct [] ((mk, mval) :: restEntries)
      = ([(mk, .vStruct [])], some .parseError) := by
    cases mval <;> simp_all [mapEntriesLoop, ensureEntry, hasEntry, isJObj]
  simp [populateKey, resolveKey_of_lookupField h, h, structMapPart,
    getMapField_of_unset hm, hloop, genericPart]

theorem c10_map_struct_nonobject_amended_witness :
    populateFields [("attrs", (true, .ftMap .ftStruct))] []
        [("attrs", .jObj [("a", .jInt 5), ("b", .jObj [("x", .jInt 1)])])]
      = populateFields [("attrs", (true, .ftMap .ftStruct))]
          [("attrs", .vMap [("a", .vStruct [])])] [] := by
  have := c10_map_struct_nonobject_amended
    [("attrs", (true, .ftMap .ftStruct))] [] "attrs" "a" (.jInt 5)
    [("b", .jObj [("x", .jInt 1)])] []
    (by simp [lookupField]) (by simp [lookupEntry]) (by decide)
  simpa [setEntry] using this

/-- A generated module as seen by the engine: message classes next to the
module-level DESCRIPTOR attribute (a file-descriptor object, not a message
class). -/
def demoModule : PbModule :=
  [("DESCRIPTOR", .otherAttr),
   ("Person", .msgClass [("id", (false, .ftInt))])]

/-- Claim C6 counterexample: the name DESCRIPTOR is not a message type of
the compiled descriptor set, yet requesting it does not produce the
type-not-found failure with the available-type list — the module attribute
lookup of line 159 succeeds, calling the non-class attribute raises, and the
broad except of lines 178-180 returns the generic encoding failure. -/
theorem c6_counterexample :
    ((msgClassNames demoModule).contains "DESCRIPTOR") = false ∧
    encodeFromModule demoModule "DESCRIPTOR" (.jObj [])
      = .error .encodeError := by
  constructor
  · decide
  · simp [encodeFromModule, lookupAttr, demoModule]

/-- Claim C6 (amended): for every requested name absent from the generated
module's attribute table, the engine returns the type-not-found failure
carrying the module's non-underscore attribute names, and that list contains
every generated message class whose name does not start with an underscore —
hence at least one real type name whenever the compiled schema declares one.
A requested name that exists as a non-class module attribute (such as
DESCRIPTOR) instead fails with the generic encoding failure. -/
theorem c6_type_not_found_amended :
    ∀ (mod : PbModule) (t M : String) (d : Descriptor) (data : JsonValue),
      lookupAttr mod t = none →
      (M, ModAttr.msgClass d) ∈ mod →
      startsWithUnderscore M = false →
      encodeFromModule mod t data
          = .error (.typeNotFound (availableTypes mod)) ∧
        M ∈ availableTypes mod := by
  intro mod t M d data hl hM hM1
  constructor
  · simp [encodeFromModule, hl]
  · apply List.mem_filter.mpr
    constructor
    · exact List.mem_map.mpr ⟨(M, .msgClass d), hM, rfl⟩
    · simp [hM1]

theorem c6_type_not_found_amended_witness :
    encodeFromModule demoModule "Missing" (.jObj [])
        = .error (.typeNotFound (availableTypes demoModule)) ∧
      "Person" ∈ availableTypes demoModule :=
  c6_type_not_found_amended demoModule "Missing" "Person"
    [("id", (false, .ftInt))] (.jObj [])
    (by simp [lookupAttr, demoModule]) (by simp [demoModule]) (by decide)

/-- The module compiled by the first request of the C7 scenario: Person with
an integer id field. -/
def staleModuleV1 : PbModule := [("Person", .msgClass [("id", (false, .ftInt))])]

/-- The module freshly compiled by the second request of the C7 scenario:
the schema file changed Person.id to a string field between the requests. -/
def staleModuleV2 : PbModule := [("Person", .msgClass [("id", (false, .ftStr))])]

/-- Claim C7 (code bug, evaluated at the failing input): two successive
requests resolve the same module name; the schema changed in between, but
`__import__` finds the name in `sys.modules` and returns the first request's
module, so the second request is encoded against the stale compiled schema
(id coerced to the integer 5) instead of the freshly compiled one (id set to
the string "5"). -/
theorem c7_stale_module_reuse :
    (handleEncodeOnce
        (handleEncodeOnce ⟨[]⟩ "api_pb2" staleModuleV1 "Person"
          (.jObj [("id", .jStr "5")])).2
        "api_pb2" staleModuleV2 "Person" (.jObj [("id", .jStr "5")])).1
      = .ok [("id", .vInt 5)] ∧
    encodeFromModule staleModuleV2 "Person" (.jObj [("id", .jStr "5")])
      = .ok [("id", .vStr "5")] := by
  have h5 : pyIsDigit "5" = true := by decide
  have h5v : digitsToInt "5" = 5 := by decide
  constructor
  · simp [handleEncodeOnce, importModule, staleModuleV1, staleModuleV2,
      encodeFromModule, lookupAttr, populateMessage, populateFields,
      populateKey, resolveKey, hasField, lookupField, structMapPart,
      genericPart, setattrScalar, scalarCheck, setEntry, h5, h5v]
  · simp [staleModuleV2, encodeFromModule, lookupAttr, populateMessage,
      populateFields, populateKey, resolveKey, hasField, lookupField,
      structMapPart, genericPart, setattrScalar, scalarCheck, setEntry]

theorem scanLines_result_exists (fs : ProtoFS) (root : String) :
    ∀ (lines seen acc : List String),
      (∀ x ∈ acc, fsHas fs x = true) →
      ∀ f ∈ (scanLines fs root lines seen acc).val.2, fsHas fs f = true := by
  intro lines seen acc
  induction lines, seen, acc using scanLines.induct fs root with
  | case1 seen acc =>
    intro hacc f hf
    simp only [scanLines] at hf
    exact hacc f hf
  | case2 line rest seen acc hparse ih =>
    intro hacc f hf
    simp only [scanLines, hparse] at hf
    exact ih hacc f hf
  | case3 line rest seen acc imp hparse hhas hseen ih =>
    intro hacc f hf
    simp [scanLines, hparse, hhas, hseen] at hf
    refine ih ?_ f hf
    intro x hx
    rcases List.mem_append.mp hx with h | h
    · exact hacc x h
    · simp only [List.mem_singleton] at h
      subst h
      exact hhas
  | case4 line rest seen acc imp hparse hhas hseen seen1 acc1 hsub1 heq1 p2
      hsub2 heq2 ih1 ih2 =>
    intro hacc f hf
    simp [scanLines, hparse, hhas, hseen] at hf
    have hX : (scanLines fs root (linesOf fs (joinPath root imp))
        (joinPath root imp :: seen) (acc ++ [joinPath root imp])).1.1
          = seen1 := by
      rw [heq1]
    have hX2 : (scanLines fs root (linesOf fs (joinPath root imp))
        (joinPath root imp :: seen) (acc ++ [joinPath root imp])).1.2
          = acc1 := by
      rw [heq1]
    rw [hX, hX2] at hf
    have hpre : ∀ x ∈ acc ++ [joinPath root imp], fsHas fs x = true := by
      intro x hx
      rcases List.mem_append.mp hx with h | h
      · exact hacc x h
      · simp only [List.mem_singleton] at h
        subst h
        exact hhas
    have hacc1 : ∀ x ∈ acc1, fsHas fs x = true := by
      have h1 := ih1 hpre
      rw [heq1] at h1
      exact h1
    exact ih2 hacc1 f hf
  | case5 line rest seen acc imp hparse hhas ih =>
    intro hacc f hf
    simp [scanLines, hparse, hhas] at hf
    exact ih hacc f hf

/-- A cyclic import graph: a.proto imports b.proto and b.proto imports
a.proto, both under include root r. -/
def cycleFS : ProtoFS :=
  [("r/a.proto", ["import \"b.proto\";"]),
   ("r/b.proto", ["import \"a.proto\";"])]

/-- A diamond import graph: root.proto imports a.proto and b.proto, both of
which import c.proto. -/
def diamondFS : ProtoFS :=
  [("r/root.proto", ["import \"a.proto\";", "import \"b.proto\";"]),
   ("r/a.proto", ["import \"c.proto\";"]),
   ("r/b.proto", ["import \"c.proto\";"]),
   ("r/c.proto", [])]

theorem cycleFS_imports_eval :
    findProtoImports cycleFS "r" "r/a.proto" = ["r/b.proto", "r/a.proto"] := by
  have e1 : linesOf cycleFS "r/a.proto" = ["import \"b.proto\";"] := by decide
  have e2 : linesOf cycleFS "r/b.proto" = ["import \"a.proto\";"] := by decide
  have p1 : parseImportLine "import \"b.proto\";" = some "b.proto" := by decide
  have p2 : parseImportLine "import \"a.proto\";" = some "a.proto" := by decide
  have j1 : joinPath "r" "b.proto" = "r/b.proto" := by decide
  have j2 : joinPath "r" "a.proto" = "r/a.proto" := by decide
  have f1 : fsHas cycleFS "r/b.proto" = true := by decide
  have f2 : fsHas cycleFS "r/a.proto" = true := by decide
  unfold findProtoImports
  rw [e1]
  simp [scanLines, p1, p2, j1, j2, f1, f2, e1, e2]

theorem diamondFS_imports_eval :
    findProtoImports diamondFS "r" "r/root.proto"
      = ["r/a.proto", "r/c.proto", "r/b.proto", "r/c.proto"] := by
  have e0 : linesOf diamondFS "r/root.proto"
      = ["import \"a.proto\";", "import \"b.proto\";"] := by decide
  have ea : linesOf diamondFS "r/a.proto" = ["import \"c.proto\";"] := by decide
  have eb : linesOf diamondFS "r/b.proto" = ["import \"c.proto\";"] := by decide
  have ec : linesOf diamondFS "r/c.proto" = [] := by decide
  have pa : parseImportLine "import \"a.proto\";" = some "a.proto" := by decide
  have pb : parseImportLine "import \"b.proto\";" = some "b.proto" := by decide
  have pc : parseImportLine "import \"c.proto\";" = some "c.proto" := by decide
  have ja : joinPath "r" "a.proto" = "r/a.proto" := by decide
  have jb : joinPath "r" "b.proto" = "r/b.proto" := by decide
  have jc : joinPath "r" "c.proto" = "r/c.proto" := by decide
  have fa : fsHas diamondFS "r/a.proto" = true := by decide
  have fb : fsHas diamondFS "r/b.proto" = true := by decide
  have fc : fsHas diamondFS "r/c.proto" = true := by decide
  unfold findProtoImports
  rw [e0]
  simp [scanLines, pa, pb, pc, ja, jb, jc, fa, fb, fc, ea, eb, ec]

theorem dedupKeepFirst_aux (l acc : List String) (h : acc.Nodup) :
    (List.foldl (fun acc x => if acc.contains x then acc else acc ++ [x])
      acc l).Nodup := by
  induction l generalizing acc with
  | nil => simpa using h
  | cons x xs ih =>
    simp only [List.foldl_cons]
    by_cases hx : acc.contains x = true
    · simp only [hx, if_true]
      exact ih acc h
    · simp only [Bool.not_eq_true] at hx
      simp only [hx, Bool.false_eq_true, if_false]
      apply ih
      have hxmem : x ∉ acc := by simpa using hx
      simp [List.nodup_append, h, hxmem]

theorem dedupKeepFirst_nodup (l : List String) : (dedupKeepFirst l).Nodup :=
  dedupKeepFirst_aux l [] (by simp)

/-- Claim C5: transitive import resolution terminates — on the A-imports-B,
B-imports-A cycle it evaluates to a finite list (the visited set keyed by
resolved path stops the re-scan) — and the compile file list handed to the
external compiler is deduplicated: it never holds duplicates, and in the
diamond graph where A and B both import C, the file C appears exactly once
in it. -/
theorem c5_import_resolution_terminates_dedup :
    (∀ (fs : ProtoFS) (root protoFile : String) (b : Bool),
       (protoFilesToCompile fs root protoFile b).Nodup) ∧
    (findProtoImports cycleFS "r" "r/a.proto" = ["r/b.proto", "r/a.proto"]) ∧
    ((protoFilesToCompile diamondFS "r" "r/root.proto" true).count "r/c.proto"
      = 1) := by
  refine ⟨?_, cycleFS_imports_eval, ?_⟩
  · intro fs root p b
    unfold protoFilesToCompile
    exact dedupKeepFirst_nodup _
  · unfold protoFilesToCompile
    rw [diamondFS_imports_eval]
    decide

/-- Claim C9: during transitive import resolution, a referenced import file
that does not exist under the include root is silently skipped — its line
contributes nothing to the result and is not recursed into — and every file
of the resolved import list exists in the staged filesystem; resolution
itself never fails. -/
theorem c9_missing_import_skipped :
    (∀ (fs : ProtoFS) (root line : String) (rest seen acc : List String)
       (imp : String),
       parseImportLine line = some imp →
       fsHas fs (joinPath root imp) = false →
       scanLines fs root (line :: rest) seen acc
         = scanLines fs root rest seen acc) ∧
    (∀ (fs : ProtoFS) (root protoFile f : String),
       f ∈ findProtoImports fs root protoFile → fsHas fs f = true) := by
  constructor
  · intro fs root line rest seen acc imp h1 h2
    simp only [scanLines, h1]
    rw [dif_neg (by simp [h2])]
  · intro fs root protoFile f hf
    exact scanLines_result_exists fs root _ _ _ (by simp) f hf

theorem c9_missing_import_skipped_witness :
    scanLines [] "r" ["import \"missing.proto\";"] [] []
        = scanLines [] "r" [] [] [] ∧
    fsHas cycleFS "r/b.proto" = true :=
  ⟨c9_missing_import_skipped.1 [] "r" "import \"missing.proto\";" [] [] []
      "missing.proto" (by decide) (by decide),
   c9_missing_import_skipped.2 cycleFS "r" "r/a.proto" "r/b.proto"
      (by rw [cycleFS_imports_eval]; simp)⟩
